import Mathlib

/-!
Shallow embedding of the next-l402 repository core: the L402 token issuance,
caveat and verification engine (src/token-utils.ts, src/challenge.ts,
src/caveats.ts, src/middleware.ts, src/types.ts) together with the
Next.js middleware orchestration.

Strings are modelled as `List Char` (JS strings over code points), byte
buffers as `List Nat` (each element a byte value).  External collaborators
(the macaroons.js HMAC chain, the Web Crypto SHA-256 digest and the
macaroon wire codec) are modelled as parameters, bundled in `ExtLib`; the
ambient clock `Date.now()` is injected as an explicit `now : Nat`
(epoch milliseconds), and `uuidv4()` results are explicit arguments.
-/

/-- Converts a Lean string literal to the `List Char` representation used
throughout the embedding. -/
def s2l (s : String) : List Char := s.data

def colonChar : Char := Char.ofNat 58

def eqChar : Char := Char.ofNat 61

def spaceChar : Char := Char.ofNat 32

/-- Whitespace test used by the models of `String.prototype.trim` and of the
regex class `\s` (the inputs of interest only contain these four). -/
def isWS (c : Char) : Bool :=
  c == Char.ofNat 32 || c == Char.ofNat 9 || c == Char.ofNat 10 || c == Char.ofNat 13

/-- Model of `String.prototype.trim`. -/
def trimL (s : List Char) : List Char :=
  ((s.dropWhile isWS).reverse.dropWhile isWS).reverse

/-- Model of `String.prototype.startsWith` (first argument the string,
second the pattern). -/
def startsWithL : List Char → List Char → Bool
  | _, [] => true
  | [], _ :: _ => false
  | a :: as, b :: bs => a == b && startsWithL as bs

/-- Model of `String.prototype.includes` (substring search). -/
def containsSub (s sub : List Char) : Bool :=
  startsWithL s sub ||
    match s with
    | [] => false
    | _ :: t => containsSub t sub

/-- Model of `String.prototype.indexOf(':')` (index of the first colon). -/
def idxOfColon : List Char → Option Nat
  | [] => none
  | c :: rest => if c == colonChar then some 0 else (idxOfColon rest).map (· + 1)

/-- Model of `String.prototype.split(sep)` (non-overlapping, left to right);
implemented with fuel, which is sufficient for every actual input since the
fuel starts at `s.length + 1` and each step consumes at least one character. -/
def splitOnSubFuel (sep : List Char) : Nat → List Char → List Char → List (List Char)
  | 0, s, acc => [acc.reverse ++ s]
  | fuel + 1, s, acc =>
    match s with
    | [] => [acc.reverse]
    | c :: rest =>
      if !sep.isEmpty && startsWithL s sep then
        acc.reverse :: splitOnSubFuel sep fuel (s.drop sep.length) []
      else
        splitOnSubFuel sep fuel rest (c :: acc)

def splitOnSub (s sep : List Char) : List (List Char) :=
  splitOnSubFuel sep (s.length + 1) s []

/-- Decimal rendering of a number, as JS template strings do for integers. -/
def natToStr (n : Nat) : List Char := Nat.toDigits 10 n

/-- Value of one hexadecimal digit, also the character class `[0-9a-fA-F]`. -/
def hexVal (c : Char) : Option Nat :=
  let n := c.toNat
  if 48 ≤ n ∧ n ≤ 57 then some (n - 48)
  else if 97 ≤ n ∧ n ≤ 102 then some (n - 87)
  else if 65 ≤ n ∧ n ≤ 70 then some (n - 55)
  else none

/-- Model of `Buffer.from(s, 'hex')`: decodes hex-digit pairs, stopping at the
first invalid pair (Node truncates there) and ignoring an odd trailing digit. -/
def hexDecode : List Char → List Nat
  | a :: b :: rest =>
    match hexVal a, hexVal b with
    | some x, some y => (16 * x + y) :: hexDecode rest
    | _, _ => []
  | _ => []

def hexDigitChar (n : Nat) : Char :=
  if n < 10 then Char.ofNat (48 + n) else Char.ofNat (87 + n)

/-- Model of `Buffer.prototype.toString('hex')` and of the byte-wise
`b.toString(16).padStart(2, '0')` mapping (lowercase, two digits per byte). -/
def hexEncode (bs : List Nat) : List Char :=
  (bs.map (fun b => [hexDigitChar (b / 16 % 16), hexDigitChar (b % 16)])).flatten

/-- Test for the regex `/^[0-9a-fA-F]+$/` (at least one character, all hex). -/
def isHexStr (s : List Char) : Bool :=
  !s.isEmpty && s.all (fun c => (hexVal c).isSome)

/-- UTF-8 encoding of one code point, as `TextEncoder` produces. -/
def utf8Char (c : Char) : List Nat :=
  let n := c.toNat
  if n < 128 then [n]
  else if n < 2048 then [192 + n / 64, 128 + n % 64]
  else if n < 65536 then [224 + n / 4096, 128 + n / 64 % 64, 128 + n % 64]
  else [240 + n / 262144, 128 + n / 4096 % 64, 128 + n / 64 % 64, 128 + n % 64]

/-- Model of `new TextEncoder().encode(s)`. -/
def utf8Str (s : List Char) : List Nat := (s.map utf8Char).flatten

def b64Alphabet : List Char :=
  s2l "ABCDEFGHIJKLMNOPQRSTUVWXYZabcdefghijklmnopqrstuvwxyz0123456789+/"

def b64CharOf (n : Nat) : Char := b64Alphabet.getD n (Char.ofNat 65)

/-- Model of `Buffer.prototype.toString('base64')` (standard alphabet with
padding). -/
def base64Encode : List Nat → List Char
  | [] => []
  | [a] => [b64CharOf (a / 4 % 64), b64CharOf (a % 4 * 16), eqChar, eqChar]
  | [a, b] =>
    [b64CharOf (a / 4 % 64), b64CharOf (a % 4 * 16 + b / 16), b64CharOf (b % 16 * 4), eqChar]
  | a :: b :: c :: rest =>
    [b64CharOf (a / 4 % 64), b64CharOf (a % 4 * 16 + b / 16),
     b64CharOf (b % 16 * 4 + c / 64 % 4), b64CharOf (c % 64)] ++ base64Encode rest

/-- Sextet value of a base64 character (standard and url-safe alphabets, as
Node accepts); anything else is ignored by the decoder. -/
def b64Value (c : Char) : Option Nat :=
  let n := c.toNat
  if 65 ≤ n ∧ n ≤ 90 then some (n - 65)
  else if 97 ≤ n ∧ n ≤ 122 then some (n - 71)
  else if 48 ≤ n ∧ n ≤ 57 then some (n + 4)
  else if n = 43 ∨ n = 45 then some 62
  else if n = 47 ∨ n = 95 then some 63
  else none

def b64FromSextets : List Nat → List Nat
  | a :: b :: c :: d :: rest =>
    (a * 4 + b / 16) :: (b % 16 * 16 + c / 4) :: (c % 4 * 64 + d) :: b64FromSextets rest
  | [a, b, c] => [a * 4 + b / 16, b % 16 * 16 + c / 4]
  | [a, b] => [a * 4 + b / 16]
  | _ => []

/-- Model of `Buffer.from(s, 'base64')`: non-alphabet characters (including
padding) are dropped, then complete bytes are rebuilt from the sextets. -/
def base64Decode (s : List Char) : List Nat :=
  b64FromSextets (s.filterMap b64Value)

def hexDigitUpper (n : Nat) : Char :=
  if n < 10 then Char.ofNat (48 + n) else Char.ofNat (55 + n)

/-- Unreserved characters of `encodeURIComponent`. -/
def isUnreservedURI (c : Char) : Bool :=
  c.isAlpha || c.isDigit || [45, 95, 46, 33, 126, 42, 39, 40, 41].contains c.toNat

/-- Model of `encodeURIComponent`: unreserved characters pass through, every
other character is percent-encoded byte-wise over its UTF-8 encoding. -/
def encodeURIComponentL (s : List Char) : List Char :=
  (s.map (fun c =>
    if isUnreservedURI c then [c]
    else ((utf8Char c).map
      (fun b => [Char.ofNat 37, hexDigitUpper (b / 16 % 16), hexDigitUpper (b % 16)])).flatten)).flatten

/-- Incoming request context: the parts of `NextRequest` the core reads
(`nextUrl.pathname`, `method`, `headers.get`). -/
structure Req where
  pathname : List Char
  method : List Char
  headers : List Char → Option (List Char)

/-- Value of a caveat (`string | number | object` in src/types.ts), together
with its JS template-string rendering. -/
inductive CaveatValue where
  | vStr (s : List Char)
  | vNum (n : Nat)
  | vList (l : List (List Char))
  | vObj
deriving Repr

/-- JS string conversion of a caveat value, as `${caveat.value}` produces:
strings verbatim, numbers in decimal, arrays comma-joined, plain objects as
"[object Object]". -/
def CaveatValue.render : CaveatValue → List Char
  | .vStr s => s
  | .vNum n => natToStr n
  | .vList l => (l.intersperse (s2l ",")).flatten
  | .vObj => s2l "[object Object]"

/-- Caveat record from src/types.ts.  `type` is a string (the `CaveatType`
enum is string-valued and the cast in `validateToken` is unchecked), and the
optional validator takes the injected clock, the request and the caveat
value. -/
structure Caveat where
  type : List Char
  value : CaveatValue
  validator : Option (Nat → Req → CaveatValue → Bool) := none

/-- Validates a caveat against a request (src/caveats.ts `validateCaveat`):
a caveat with no validator validates true. -/
def validateCaveat (now : Nat) (req : Req) (c : Caveat) : Bool :=
  match c.validator with
  | none => true
  | some f => f now req c.value

/-- Validates all caveats against a request (src/caveats.ts
`validateCaveats`). -/
def validateCaveats (now : Nat) (req : Req) (cs : List Caveat) : Bool :=
  cs.all (validateCaveat now req)

/-- Expiration caveat constructor (src/caveats.ts `createExpirationCaveat`):
the deadline is in epoch seconds (`Math.floor(Date.now() / 1000) +
expiresInSeconds`) and the validator compares the current epoch-second time
against it; `nowC` is the clock at construction time. -/
def createExpirationCaveat (nowC : Nat) (expiresInSeconds : Nat) : Caveat :=
  { type := s2l "expiration"
    value := .vNum (nowC / 1000 + expiresInSeconds)
    validator := some (fun now _req v =>
      match v with
      | .vNum d => decide (now / 1000 ≤ d)
      | _ => false) }

/-- Macaroon structure as observed through macaroons.js: location, identifier
and the ordered first-party caveat strings (`caveatPackets` raw values). -/
structure Macaroon where
  location : List Char
  identifier : List Char
  caveats : List (List Char)
deriving DecidableEq, Repr

/-- External collaborators, modelled as parameters: the macaroons.js keyed
chaining function (HMAC-SHA256), the Web Crypto SHA-256 digest, and the
macaroon wire codec's `MacaroonsBuilder.deserialize` (which returns `none`
where the library would throw on malformed input). -/
structure ExtLib where
  hmac : List Nat → List Nat → List Nat
  sha256 : List Nat → List Nat
  deserialize : List Char → Option (Macaroon × List Nat)

/-- Chained macaroon signature as macaroons.js computes it: the key string is
first derived with the fixed generator string, the identifier seeds the
chain, and every first-party caveat string transforms the running
signature in order. -/
def chainSig (hmac : List Nat → List Nat → List Nat) (keyStr : List Char) (m : Macaroon) : List Nat :=
  (m.caveats.map utf8Str).foldl hmac
    (hmac (hmac (utf8Str (s2l "macaroons-key-generator")) (utf8Str keyStr)) (utf8Str m.identifier))

/-- Client-presented token (src/types.ts `L402Token`): serialized macaroon
plus preimage, both parsed from the Authorization header. -/
structure L402TokenE where
  macaroon : List Char
  preimage : List Char
deriving DecidableEq, Repr

/-- Extracts an L402 token from the Authorization header (src/token-utils.ts
and src/middleware.ts `extractTokenFromHeader`): requires the literal scheme
`L402 `, splits the remainder at the first colon, and returns null when the
header is missing or malformed or either part is empty. -/
def extractTokenFromHeader (req : Req) : Option L402TokenE :=
  match req.headers (s2l "Authorization") with
  | none => none
  | some authHeader =>
    if authHeader.isEmpty || !startsWithL authHeader (s2l "L402 ") then none
    else
      let tokenPart := authHeader.drop 5
      match idxOfColon tokenPart with
      | none => none
      | some colonIndex =>
        let macaroon := tokenPart.take colonIndex
        let preimage := tokenPart.drop (colonIndex + 1)
        if macaroon.isEmpty || preimage.isEmpty then none
        else some { macaroon, preimage }

/-- Creates a WWW-Authenticate header value for L402 (src/token-utils.ts
`createWwwAuthenticateHeader`). -/
def createWwwAuthenticateHeader (macaroon paymentRequest : List Char) : List Char :=
  s2l "L402 macaroon=\"" ++ macaroon ++ s2l "\", invoice=\"" ++ paymentRequest ++ s2l "\""

/-- Model of `Buffer.prototype.copy(target, targetStart, sourceStart,
sourceEnd)`: copies the source region, truncated so it fits inside the
target, and never changes the target's length. -/
def bufCopy (target src : List Nat) (tStart sStart sEnd : Nat) : List Nat :=
  let seg := (((src.take (min sEnd src.length)).drop sStart).take (target.length - tStart))
  target.take tStart ++ seg ++ target.drop (tStart + seg.length)

/-- Creates the macaroon identifier (src/token-utils.ts
`createMacaroonIdentifier`): 2-byte big-endian version 0, a 32-byte user id
filled from up to two uuid hex strings (`u2`, `u3` are the `uuidv4()`
results with dashes removed by the callee), then the hex-decoded payment
hash.  The payment hash length is never checked. -/
def createMacaroonIdentifier (u2 u3 : List Char) (paymentHash : List Char) : List Nat :=
  let version : List Nat := [0, 0]
  let userId0 : List Nat := List.replicate 32 0
  let uuidBytes := hexDecode (u2.filter (fun c => !(c == Char.ofNat 45)))
  let userId1 := bufCopy userId0 uuidBytes 0 0 (min uuidBytes.length 32)
  let userId :=
    if uuidBytes.length < 32 then
      let uuidBytes2 := hexDecode (u3.filter (fun c => !(c == Char.ofNat 45)))
      bufCopy userId1 uuidBytes2 uuidBytes.length 0 uuidBytes2.length
    else userId1
  version ++ userId ++ hexDecode paymentHash

/-- Match attempt of the regex `/payment_hash\s*=\s*(.+)/` at one position:
the literal, optional whitespace, `=`, then the capture, which needs at
least one character; when everything after `=` is whitespace the greedy
`\s*` backs off one character so `.+` can still match. -/
def tryPHAt (s : List Char) : Option (List Char) :=
  if startsWithL s (s2l "payment_hash") then
    let r1 := (s.drop 12).dropWhile isWS
    if r1.headD spaceChar == eqChar then
      let r2 := r1.drop 1
      if r2.isEmpty then none
      else if (r2.dropWhile isWS).isEmpty then some [r2.getLastD spaceChar]
      else some (r2.dropWhile isWS)
    else none
  else none

/-- Search of `/payment_hash\s*=\s*(.+)/` over the whole caveat string
(leftmost match wins), returning the capture group. -/
def matchPaymentHash : List Char → Option (List Char)
  | [] => none
  | s@(_ :: rest) =>
    match tryPHAt s with
    | some cap => some cap
    | none => matchPaymentHash rest

/-- Preimage bytes as src/token-utils.ts `validateToken` interprets them:
hex-decoded when the preimage passes `/^[0-9a-fA-F]+$/` with even length,
otherwise the UTF-8 bytes of the raw text. -/
def preimageBytes (p : List Char) : List Nat :=
  if isHexStr p && p.length % 2 == 0 then hexDecode p else utf8Str p

/-- Reconstruction of one caveat object from its packet string
(src/token-utils.ts `validateToken`): split on `" = "`, trim the parts, and
drop the caveat when the type or value part is missing or empty.  The
reconstructed caveat carries no validator. -/
def parseCaveatObj (cstr : List Char) : Option Caveat :=
  let parts := (splitOnSub cstr (s2l " = ")).map trimL
  let ty := parts.getD 0 []
  match parts[1]? with
  | none => none
  | some v =>
    if ty.isEmpty || v.isEmpty then none
    else some { type := ty, value := .vStr v, validator := none }

/-- Composite extraction of the payment-hash caveat value from a verified
macaroon: the first caveat string containing `payment_hash`, matched with
the regex and trimmed. -/
def extractPaymentHashValue (m : Macaroon) : Option (List Char) :=
  (m.caveats.find? (fun c => containsSub c (s2l "payment_hash"))).bind
    (fun cstr => (matchPaymentHash cstr).map trimL)

/-- Body of src/token-utils.ts `validateToken` (identical to the copy in
src/middleware.ts): deserialization failures surface as `.error` (the
library throw), every other path returns a boolean.  Signature verification
registers every caveat string as exactly satisfied and then checks the
chained signature under the hex rendering of the secret key. -/
def validateTokenCore (lib : ExtLib) (now : Nat) (req : Req) (token : L402TokenE)
    (secretKey : List Nat) (optCaveats : List Caveat) : Except Unit Bool :=
  match lib.deserialize token.macaroon with
  | none => .error ()
  | some (m, sig) =>
    .ok (
      if chainSig lib.hmac (hexEncode secretKey) m = sig then
        match m.caveats.find? (fun c => containsSub c (s2l "payment_hash")) with
        | none => false
        | some caveatStr =>
          match matchPaymentHash caveatStr with
          | none => false
          | some cap =>
            let paymentHash := trimL cap
            let computedPaymentHash := hexEncode (lib.sha256 (preimageBytes token.preimage))
            let paymentHashHex := hexEncode (base64Decode paymentHash)
            if computedPaymentHash = paymentHashHex then
              let caveatObjs := (m.caveats.filter
                (fun c => !containsSub c (s2l "payment_hash"))).filterMap parseCaveatObj
              if optCaveats.length ≠ 0 then validateCaveats now req (caveatObjs ++ optCaveats)
              else validateCaveats now req caveatObjs
            else false
      else false)

/-- Validates an L402 token (src/token-utils.ts `validateToken`): the
enclosing try/catch folds any thrown fault into `false`, so the caller only
ever observes a boolean. -/
def validateToken (lib : ExtLib) (now : Nat) (req : Req) (token : L402TokenE)
    (secretKey : List Nat) (optCaveats : List Caveat) : Bool :=
  match validateTokenCore lib now req token secretKey optCaveats with
  | .ok b => b
  | .error _ => false

/-- Isolated signature-verification phase of `validateToken` (deserialize,
satisfy every caveat exactly, check the chained signature), the `verify`
operation of the Token Engine. -/
def verifyMacaroonSignature (lib : ExtLib) (keyStr : List Char) (serialized : List Char) : Bool :=
  match lib.deserialize serialized with
  | none => false
  | some (m, sig) => decide (chainSig lib.hmac keyStr m = sig)

/-- Lightning invoice (src/types.ts `Invoice`); the payment hash is hex
text. -/
structure Invoice where
  paymentHash : List Char
  paymentRequest : List Char
  amountSats : Nat
deriving DecidableEq, Repr

/-- Payment Backend capability (src/types.ts `LightningClient`), modelled as
pure functions. -/
structure LightningClientE where
  createInvoice : Nat → Invoice
  verifyPayment : List Char → Bool

/-- Challenge options (src/types.ts `L402ChallengeOptions`).  The
`tokenValidityDuration` field is declared there but never read by
`createChallengeResponse`. -/
structure L402ChallengeOptionsE where
  lightning : LightningClientE
  priceSats : Option Nat := none
  caveats : Option (List Caveat) := none
  secretKey : Option (List Nat) := none
  tokenValidityDuration : Option Nat := none
  location : Option (List Char) := none

def DEFAULT_PRICE_SATS : Nat := 100

def DEFAULT_TOKEN_VALIDITY_SECONDS : Nat := 24 * 60 * 60

/-- Serialization of a caller-supplied caveat at issuance
(src/challenge.ts): the template string `` `${caveat.type} = ${caveat.value}` ``. -/
def serializeCaveatStr (c : Caveat) : List Char :=
  c.type ++ s2l " = " ++ c.value.render

/-- Session record cached by payment hash (src/cache.ts `L402Session`). -/
structure L402SessionE where
  macaroon : List Char
  invoice : Invoice
  secretKey : List Nat
  createdAt : Nat

/-- Result of src/challenge.ts `createChallengeResponse`, extended with the
structured macaroon and its signature (the `getMacaroon()` value) so the
built token can be inspected, and with the session it stores. -/
structure L402ChallengeE where
  invoice : Invoice
  wwwAuthenticate : List Char
  macaroon : List Char
  macaroonStruct : Macaroon
  signature : List Nat
  session : L402SessionE

/-- Creates a challenge response (src/challenge.ts `createChallengeResponse`):
invoice via the payment backend, secret key with uuid fallback (`u1`),
identifier from `u2`/`u3`, then the macaroon with the payment-hash caveat
(base64 of resolving the hex payment hash), the expiration caveat (epoch ms,
always `now` plus the fixed 24-hour default) and the caller caveats, in that
order.  `serializeM` is the library's serializer. -/
def createChallengeResponse (lib : ExtLib) (serializeM : Macaroon → List Nat → List Char)
    (u1 u2 u3 : List Char) (now : Nat) (options : L402ChallengeOptionsE) : L402ChallengeE :=
  let invoice := options.lightning.createInvoice (options.priceSats.getD DEFAULT_PRICE_SATS)
  let secretKey := options.secretKey.getD (hexDecode (u1.filter (fun c => !(c == Char.ofNat 45))))
  let identifier := createMacaroonIdentifier u2 u3 invoice.paymentHash
  let location := options.location.getD (s2l "https://localhost:3000")
  let paymentHashBase64 := base64Encode (hexDecode invoice.paymentHash)
  let expirationTime := now + DEFAULT_TOKEN_VALIDITY_SECONDS * 1000
  let caveats :=
    (s2l "payment_hash = " ++ paymentHashBase64) ::
    (s2l "expiration = " ++ natToStr expirationTime) ::
    (options.caveats.getD []).map serializeCaveatStr
  let m : Macaroon := { location := location, identifier := base64Encode identifier, caveats := caveats }
  let sig := chainSig lib.hmac (hexEncode secretKey) m
  let serializedMacaroon := serializeM m sig
  { invoice := invoice
    wwwAuthenticate := createWwwAuthenticateHeader serializedMacaroon invoice.paymentRequest
    macaroon := serializedMacaroon
    macaroonStruct := m
    signature := sig
    session := { macaroon := serializedMacaroon, invoice := invoice, secretKey := secretKey, createdAt := now } }

/-- HTTP response shape used by the challenge endpoint handler. -/
structure HttpResponse where
  status : Nat
  headers : List (List Char × List Char)
  body : List Char
deriving DecidableEq, Repr

/-- Success response of the challenge endpoint handler (src/challenge.ts
`createChallengeHandler`): 402 with the structured WWW-Authenticate
challenge header. -/
def createChallengeHandlerResponse (ch : L402ChallengeE) : HttpResponse :=
  { status := 402
    headers := [(s2l "WWW-Authenticate", ch.wwwAuthenticate), (s2l "Content-Type", s2l "text/plain")]
    body := s2l "Payment Required" }

/-- Modelled from the spec: the type `L402MiddlewareOptions` is imported by
src/middleware.ts from `./types` but its declaration is absent from the
available sources; the fields follow the spec's configuration surface and the
fields the middleware and its tests actually use (payment backend, route
policy, price, caveats, signing secret, challenge-endpoint path, anchor
location). -/
structure L402MiddlewareOptionsE where
  lightning : Option LightningClientE := none
  matcher : Option (Req → Bool) := none
  priceSats : Option Nat := none
  caveats : Option (List Caveat) := none
  secretKey : Option (List Nat) := none
  challengeEndpoint : Option (List Char) := none
  location : Option (List Char) := none

/-- Middleware outcome: pass through (`NextResponse.next()`) or a built
response. -/
inductive MwResult where
  | next
  | response (status : Nat) (headers : List (List Char × List Char)) (body : List Char)
deriving DecidableEq, Repr

/-- The 402 response src/middleware.ts builds when no valid token is
presented: plain-text instructions pointing at the challenge endpoint, with
only a Content-Type header. -/
def mwChallenge402 (challengeEndpoint : List Char) (req : Req) : MwResult :=
  .response 402 [(s2l "Content-Type", s2l "text/plain")]
    (s2l "Payment Required - Visit " ++ challengeEndpoint ++ s2l "?route="
      ++ encodeURIComponentL req.pathname ++ s2l " to generate payment challenge")

/-- L402 middleware (src/middleware.ts `l402`): construction returns `none`
where the code throws for a missing secret key; the per-request function
passes unmatched routes through, admits a request exactly when a token was
extracted and `validateToken` succeeds, and otherwise answers with the
plain 402.  The `lightning` option is never consulted. -/
def l402 (lib : ExtLib) (now : Nat) (options : L402MiddlewareOptionsE) : Option (Req → MwResult) :=
  match options.secretKey with
  | none => none
  | some secretKey =>
    let matcher := options.matcher.getD (fun _ => true)
    let caveats := options.caveats.getD []
    let challengeEndpoint := options.challengeEndpoint.getD (s2l "/api/l402/challenge")
    some (fun req =>
      if !matcher req then .next
      else
        match extractTokenFromHeader req with
        | some token =>
          if validateToken lib now req token secretKey caveats then .next
          else mwChallenge402 challengeEndpoint req
        | none => mwChallenge402 challengeEndpoint req)

/-! Concrete instances used by witnesses and counterexamples.  The external
hash parameters are instantiated with simple executable functions (the
embedding is parametric in them), and the wire codec with a finite-table
deserializer. -/

def idHmac : List Nat → List Nat → List Nat := fun k m => k ++ m

def idSha : List Nat → List Nat := fun b => b

def m0 : Macaroon :=
  { location := s2l "https://localhost:3000"
    identifier := s2l "id0"
    caveats := [s2l "payment_hash = qw==", s2l "expiration = 0"] }

def mNoPH : Macaroon :=
  { location := s2l "https://localhost:3000"
    identifier := s2l "id1"
    caveats := [s2l "expiration = 0"] }

def key0 : List Nat := []

def sig0 : List Nat := chainSig idHmac (hexEncode key0) m0

def sigNoPH : List Nat := chainSig idHmac (hexEncode key0) mNoPH

def lib0 : ExtLib :=
  { hmac := idHmac
    sha256 := idSha
    deserialize := fun s =>
      if s = s2l "MAC0" then some (m0, sig0)
      else if s = s2l "MACNOPH" then some (mNoPH, sigNoPH)
      else none }

def tok0 : L402TokenE := { macaroon := s2l "MAC0", preimage := s2l "ab" }

def tokBad : L402TokenE := { macaroon := s2l "MAC0", preimage := s2l "ff" }

def tokNoPH : L402TokenE := { macaroon := s2l "MACNOPH", preimage := s2l "ab" }

def reqAuth : Req :=
  { pathname := s2l "/protected/y", method := s2l "GET"
    headers := fun h => if h = s2l "Authorization" then some (s2l "L402 MAC0:ab") else none }

def reqNoAuth : Req :=
  { pathname := s2l "/protected/y", method := s2l "GET", headers := fun _ => none }

def mkAuthReq (v : String) : Req :=
  { pathname := s2l "/protected/y", method := s2l "GET"
    headers := fun h => if h = s2l "Authorization" then some (s2l v) else none }

def lnW : LightningClientE :=
  { createInvoice := fun n => { paymentHash := s2l "ab", paymentRequest := s2l "lnbc1", amountSats := n }
    verifyPayment := fun _ => true }

def lnUnsettled : LightningClientE :=
  { createInvoice := fun n => { paymentHash := s2l "ab", paymentRequest := s2l "lnbc1", amountSats := n }
    verifyPayment := fun _ => false }

def optsC1 : L402MiddlewareOptionsE :=
  { lightning := some lnUnsettled, secretKey := some key0 }

def optsC2 : L402MiddlewareOptionsE :=
  { lightning := some lnW
    matcher := some (fun r => decide (r.pathname = s2l "/protected/y"))
    secretKey := some key0 }

def serW : Macaroon → List Nat → List Char := fun _ _ => s2l "S"

def optsW : L402ChallengeOptionsE := { lightning := lnW, secretKey := some key0 }

def mW : Macaroon :=
  { location := s2l "https://localhost:3000"
    identifier := base64Encode (createMacaroonIdentifier (s2l "") (s2l "") (s2l "ab"))
    caveats := [s2l "payment_hash = " ++ base64Encode (hexDecode (s2l "ab")),
                s2l "expiration = " ++ natToStr 86400000] }

def sigW : List Nat := chainSig idHmac (hexEncode key0) mW

def libW : ExtLib :=
  { hmac := idHmac
    sha256 := idSha
    deserialize := fun s => if s = s2l "S" then some (mW, sigW) else none }

def chalW : L402ChallengeE := createChallengeResponse libW serW (s2l "") (s2l "") (s2l "") 0 optsW

def dupCaveat : Caveat := { type := s2l "expiration", value := .vNum 5, validator := none }

def optsDup : L402ChallengeOptionsE :=
  { lightning := lnW, secretKey := some key0, caveats := some [dupCaveat] }

def optsTV : L402ChallengeOptionsE :=
  { lightning := lnW, secretKey := some key0, tokenValidityDuration := some 10 }

/-- Boolean form of the preimage-against-caveat hash comparison performed by
`validateToken`: the hex rendering of the SHA-256 of the preimage bytes
against the hex rendering of the base64-decoded stored caveat value; `true`
when the token carries no extractable payment-hash value (that case is
rejected separately). -/
def preimageMatchesStoredHash (lib : ExtLib) (m : Macaroon) (preimage : List Char) : Bool :=
  match extractPaymentHashValue m with
  | some ph => hexEncode (lib.sha256 (preimageBytes preimage)) == hexEncode (base64Decode ph)
  | none => true

/-! Helper lemmas. -/

theorem take_append_self {α : Type} (l₁ l₂ : List α) : (l₁ ++ l₂).take l₁.length = l₁ := by
  induction l₁ with
  | nil => rfl
  | cons a t ih => simp [ih]

theorem drop_append_self {α : Type} (l₁ l₂ : List α) : (l₁ ++ l₂).drop l₁.length = l₂ := by
  induction l₁ with
  | nil => rfl
  | cons a t ih => simp [ih]

theorem startsWithL_append (p x : List Char) : startsWithL (p ++ x) p = true := by
  induction p with
  | nil => cases x <;> rfl
  | cons a t ih => simp [startsWithL, ih]

theorem idxOfColon_of_not_mem (l : List Char) (h : ∀ c ∈ l, c ≠ colonChar) :
    idxOfColon l = none := by
  induction l with
  | nil => rfl
  | cons a t ih =>
    have ha : a ≠ colonChar := h a (List.mem_cons_self a t)
    have : (a == colonChar) = false := beq_eq_false_iff_ne.mpr ha
    simp [idxOfColon, this, ih (fun c hc => h c (List.mem_cons_of_mem a hc))]

theorem idxOfColon_split (m p : List Char) (hm : colonChar ∉ m) :
    idxOfColon (m ++ colonChar :: p) = some m.length := by
  induction m with
  | nil => simp [idxOfColon]
  | cons a t ih =>
    have ha : a ≠ colonChar := fun h => hm (h ▸ List.mem_cons_self a t)
    have hbeq : (a == colonChar) = false := beq_eq_false_iff_ne.mpr ha
    have ht : colonChar ∉ t := fun h => hm (List.mem_cons_of_mem a h)
    simp [idxOfColon, hbeq, ih ht]

theorem bufCopy_length (target src : List Nat) (a b c : Nat) :
    (bufCopy target src a b c).length = target.length := by
  unfold bufCopy
  simp only [List.length_append, List.length_take, List.length_drop]
  omega

theorem hexVal_hexDigitChar (n : Nat) (h : n < 16) : hexVal (hexDigitChar n) = some n := by
  interval_cases n <;> decide

theorem hexDecode_hexEncode (C : List Nat) (hC : ∀ b ∈ C, b < 256) :
    hexDecode (hexEncode C) = C := by
  induction C with
  | nil => rfl
  | cons b t ih =>
    have hb : b < 256 := hC b (List.mem_cons_self b t)
    have ht : ∀ x ∈ t, x < 256 := fun x hx => hC x (List.mem_cons_of_mem b hx)
    have h1 : hexVal (hexDigitChar (b / 16 % 16)) = some (b / 16 % 16) :=
      hexVal_hexDigitChar _ (Nat.mod_lt _ (by norm_num))
    have h2 : hexVal (hexDigitChar (b % 16)) = some (b % 16) :=
      hexVal_hexDigitChar _ (Nat.mod_lt _ (by norm_num))
    show hexDecode (hexDigitChar (b / 16 % 16) :: hexDigitChar (b % 16) :: hexEncode t) = b :: t
    simp only [hexDecode, h1, h2, ih ht]
    congr 1
    have hd : b / 16 < 16 := Nat.div_lt_of_lt_mul (by omega)
    rw [Nat.mod_eq_of_lt hd]
    exact Nat.div_add_mod b 16

/-! Claim theorems. -/

/-- C1.  The claim says a retry with authorization material is admitted only
if, among other checks, the Payment Backend's settlement check reports the
invoice settled.  The middleware admits the request here although the
configured payment backend reports every invoice unsettled: `validateToken`
and the middleware never invoke `verifyPayment`, so admission rests only on
the signature, the preimage hash and the caveats. -/
theorem l402_admits_without_settlement_check :
    lnUnsettled.verifyPayment (s2l "ab") = false
    ∧ (l402 lib0 0 optsC1).map (fun f => f reqAuth) = some MwResult.next := by
  constructor
  · rfl
  · decide

/-- C2.  The claim says the middleware's response to a policy-matched request
without valid credentials is a 402 carrying a WWW-Authenticate challenge
header.  The middleware's actual 402 carries only a Content-Type header and
plain-text instructions; the structured challenge header is produced by the
separate challenge endpoint handler, as the trailing conjuncts show. -/
theorem l402_402_lacks_www_authenticate :
    (l402 lib0 0 optsC2).map (fun f => f reqNoAuth) =
      some (MwResult.response 402 [(s2l "Content-Type", s2l "text/plain")]
        (s2l "Payment Required - Visit /api/l402/challenge?route=%2Fprotected%2Fy to generate payment challenge"))
    ∧ (createChallengeHandlerResponse chalW).status = 402
    ∧ (createChallengeHandlerResponse chalW).headers.lookup (s2l "WWW-Authenticate") = some chalW.wwwAuthenticate
    ∧ containsSub chalW.wwwAuthenticate (s2l "L402") = true
    ∧ containsSub chalW.wwwAuthenticate (s2l "macaroon=\"") = true
    ∧ containsSub chalW.wwwAuthenticate (s2l "invoice=\"") = true := by
  refine ⟨by decide, rfl, by decide, by decide, by decide, by decide⟩

/-- C3 counterexample.  The token carries the expiration caveat
`expiration = 0` (deadline epoch-millisecond 0), yet validation at the much
later injected time 999999999999 still succeeds: the caveat reconstructed
from the serialized token has no validator, and caveat evaluation accepts
validator-less caveats unconditionally. -/
theorem expiration_ignored_after_deadline :
    m0.caveats.getD 1 [] = s2l "expiration = 0"
    ∧ validateToken lib0 999999999999 reqAuth tok0 key0 [] = true := by
  refine ⟨rfl, by decide⟩

/-- C3 (amended).  A caveat carrying no validator — in particular every
caveat reconstructed from a serialized token, whose evaluator identity is
lost — is accepted by caveat evaluation regardless of the injected time; a
directly constructed expiration caveat (whose deadline is in epoch seconds)
is accepted exactly while the current epoch-second time is at most the
deadline and rejected afterwards. -/
theorem expiration_caveat_evaluation (nowC s now : Nat) (req : Req) (ty : List Char) (v : CaveatValue) :
    validateCaveat now req { type := ty, value := v, validator := none } = true
    ∧ validateCaveat now req (createExpirationCaveat nowC s) = decide (now / 1000 ≤ nowC / 1000 + s) := by
  exact ⟨rfl, rfl⟩

/-- C8 counterexample.  With a caller-supplied caveat of kind `expiration`,
the issued token carries two caveats of that kind, refuting the claim that
every issued token carries exactly one expiration caveat. -/
theorem issued_token_duplicate_expiration :
    ((createChallengeResponse libW serW (s2l "") (s2l "") (s2l "") 0 optsDup).macaroonStruct.caveats.countP
      (fun c => startsWithL c (s2l "expiration = "))) = 2 := by
  decide

/-- C8 (amended).  Issuance appends, strictly in this order, the
payment-hash caveat (base64 of the hex-decoded invoice payment hash), the
expiration caveat, then each caller-supplied caveat in the order the caller
gave them; no uniqueness of kinds is enforced. -/
theorem issued_caveat_order (lib : ExtLib) (serializeM : Macaroon → List Nat → List Char)
    (u1 u2 u3 : List Char) (now : Nat) (options : L402ChallengeOptionsE) :
    (createChallengeResponse lib serializeM u1 u2 u3 now options).macaroonStruct.caveats =
      (s2l "payment_hash = " ++ base64Encode (hexDecode
          (options.lightning.createInvoice (options.priceSats.getD DEFAULT_PRICE_SATS)).paymentHash))
      :: (s2l "expiration = " ++ natToStr (now + DEFAULT_TOKEN_VALIDITY_SECONDS * 1000))
      :: (options.caveats.getD []).map serializeCaveatStr := rfl

/-- C9 counterexample.  With `tokenValidityDuration` configured to 10
seconds and issuance at time 0, the expiration caveat still reads
86400000 ms (the fixed 24-hour default), not 10000 ms as the claimed
host-supplied window would give. -/
theorem token_validity_option_ignored :
    (createChallengeResponse libW serW (s2l "") (s2l "") (s2l "") 0 optsTV).macaroonStruct.caveats.getD 1 []
      = s2l "expiration = 86400000"
    ∧ (createChallengeResponse libW serW (s2l "") (s2l "") (s2l "") 0 optsTV).macaroonStruct.caveats.getD 1 []
      ≠ s2l "expiration = 10000" := by
  refine ⟨by decide, by decide⟩

/-- C9 (amended).  The expiration caveat value of every issued token is the
absolute epoch-millisecond deadline equal to the issuance time plus the
fixed 86400-second default window; the declared `tokenValidityDuration`
option never enters the computation. -/
theorem expiration_value_fixed_window (lib : ExtLib) (serializeM : Macaroon → List Nat → List Char)
    (u1 u2 u3 : List Char) (now : Nat) (options : L402ChallengeOptionsE) :
    (createChallengeResponse lib serializeM u1 u2 u3 now options).macaroonStruct.caveats.getD 1 [] =
      s2l "expiration = " ++ natToStr (now + 86400 * 1000) := rfl

/-- C7 counterexample.  The claim says encode fails when the payment hash is
not exactly 32 bytes; `createMacaroonIdentifier` performs no such check — on
a 1-byte payment hash it returns normally with a 35-byte identifier. -/
theorem createMacaroonIdentifier_no_failure :
    (createMacaroonIdentifier (s2l "") (s2l "") (s2l "ab")).length = 35
    ∧ (createMacaroonIdentifier (s2l "") (s2l "") (s2l "ab")).length ≠ 66 := by
  refine ⟨by decide, by decide⟩

theorem createMacaroonIdentifier_parts (u2 u3 ph : List Char) :
    ∃ uid : List Nat, uid.length = 32 ∧
      createMacaroonIdentifier u2 u3 ph = 0 :: 0 :: (uid ++ hexDecode ph) := by
  unfold createMacaroonIdentifier
  refine ⟨_, ?_, rfl⟩
  by_cases h : (hexDecode (u2.filter (fun c => !(c == Char.ofNat 45)))).length < 32
  · simp [h, bufCopy_length]
  · simp [h, bufCopy_length]

/-- C7 (amended).  For every 32-byte payment hash `B` (presented, as in the
code, as hex text) the identifier is exactly 66 bytes, opens with the
big-endian version 0 and ends with the 32 raw payment-hash bytes; for a
payment hash of any other byte length the operation does not fail but
returns `34 + length` bytes. -/
theorem createMacaroonIdentifier_spec (u2 u3 : List Char) (B C : List Nat)
    (hlen : B.length = 32) (hB : ∀ b ∈ B, b < 256) (hC : ∀ b ∈ C, b < 256) :
    ((createMacaroonIdentifier u2 u3 (hexEncode B)).length = 66
      ∧ (createMacaroonIdentifier u2 u3 (hexEncode B)).take 2 = [0, 0]
      ∧ (createMacaroonIdentifier u2 u3 (hexEncode B)).drop 34 = B)
    ∧ (createMacaroonIdentifier u2 u3 (hexEncode C)).length = 34 + C.length := by
  obtain ⟨uidB, hulen, heq⟩ := createMacaroonIdentifier_parts u2 u3 (hexEncode B)
  rw [hexDecode_hexEncode B hB] at heq
  obtain ⟨uidC, hulenC, heqC⟩ := createMacaroonIdentifier_parts u2 u3 (hexEncode C)
  rw [hexDecode_hexEncode C hC] at heqC
  refine ⟨⟨?_, ?_, ?_⟩, ?_⟩
  · rw [heq]; simp [List.length_append, hulen, hlen]
  · rw [heq]; rfl
  · rw [heq]
    show (uidB ++ B).drop 32 = B
    rw [← hulen, drop_append_self]
  · rw [heqC]; simp [List.length_append, hulenC]; omega

/-- C7 witness: the amended statement instantiated at a concrete 32-byte
hash and a concrete 2-byte hash. -/
theorem createMacaroonIdentifier_spec_witness :
    (((createMacaroonIdentifier (s2l "u") (s2l "v") (hexEncode (List.replicate 32 171))).length = 66
      ∧ (createMacaroonIdentifier (s2l "u") (s2l "v") (hexEncode (List.replicate 32 171))).take 2 = [0, 0]
      ∧ (createMacaroonIdentifier (s2l "u") (s2l "v") (hexEncode (List.replicate 32 171))).drop 34
          = List.replicate 32 171)
    ∧ (createMacaroonIdentifier (s2l "u") (s2l "v") (hexEncode [1, 2])).length = 34 + [1, 2].length) :=
  createMacaroonIdentifier_spec (s2l "u") (s2l "v") (List.replicate 32 171) [1, 2]
    (by decide) (by decide) (by decide)

/-- C5.  Issue/verify round-trip: whenever the wire codec deserializes the
just-issued serialization back to the built macaroon and its signature (the
macaroons.js round-trip contract), verifying that serialization under the
same secret key — the configured one, or the uuid-derived fallback the
issuance actually used — reports the token valid. -/
theorem issue_verify_roundtrip (lib : ExtLib) (serializeM : Macaroon → List Nat → List Char)
    (u1 u2 u3 : List Char) (now : Nat) (options : L402ChallengeOptionsE)
    (hrt : lib.deserialize (createChallengeResponse lib serializeM u1 u2 u3 now options).macaroon =
      some ((createChallengeResponse lib serializeM u1 u2 u3 now options).macaroonStruct,
            (createChallengeResponse lib serializeM u1 u2 u3 now options).signature)) :
    verifyMacaroonSignature lib
      (hexEncode (options.secretKey.getD (hexDecode (u1.filter (fun c => !(c == Char.ofNat 45))))))
      (createChallengeResponse lib serializeM u1 u2 u3 now options).macaroon = true := by
  unfold verifyMacaroonSignature
  rw [hrt]
  simp [createChallengeResponse]

/-- C5 witness: the round-trip at a concrete codec, key and clock. -/
theorem issue_verify_roundtrip_witness :
    verifyMacaroonSignature libW
      (hexEncode (optsW.secretKey.getD (hexDecode ((s2l "").filter (fun c => !(c == Char.ofNat 45))))))
      (createChallengeResponse libW serW (s2l "") (s2l "") (s2l "") 0 optsW).macaroon = true :=
  issue_verify_roundtrip libW serW (s2l "") (s2l "") (s2l "") 0 optsW (by decide)

/-- C6.  Token verification fails closed: `validateToken` is a total boolean
function (the library throw on malformed serializations is caught and folded
into `false`), a chained-signature mismatch — in particular any wrong key —
yields `false`, and a token whose caveat list contains no payment-hash
caveat is unconditionally invalid even when its signature verifies. -/
theorem validateToken_failsClosed (lib : ExtLib) (now : Nat) (req : Req) (token : L402TokenE)
    (secretKey : List Nat) (optCaveats : List Caveat) :
    (lib.deserialize token.macaroon = none →
      validateToken lib now req token secretKey optCaveats = false)
    ∧ (∀ m sig, lib.deserialize token.macaroon = some (m, sig) →
        chainSig lib.hmac (hexEncode secretKey) m ≠ sig →
        validateToken lib now req token secretKey optCaveats = false)
    ∧ (∀ m sig, lib.deserialize token.macaroon = some (m, sig) →
        m.caveats.find? (fun c => containsSub c (s2l "payment_hash")) = none →
        validateToken lib now req token secretKey optCaveats = false) := by
  refine ⟨?_, ?_, ?_⟩
  · intro h
    unfold validateToken validateTokenCore
    rw [h]
  · intro m sig hde hsig
    unfold validateToken validateTokenCore
    rw [hde]
    simp [hsig]
  · intro m sig hde hfind
    unfold validateToken validateTokenCore
    rw [hde]
    by_cases hsig : chainSig lib.hmac (hexEncode secretKey) m = sig
    · simp [hsig, hfind]
    · simp [hsig]

/-- C6 witness: a malformed serialization, a wrong key, and a token without
a payment-hash caveat, each rejected. -/
theorem validateToken_failsClosed_witness :
    validateToken lib0 0 reqAuth { macaroon := s2l "garbage", preimage := s2l "ab" } key0 [] = false
    ∧ validateToken lib0 0 reqAuth tok0 [1] [] = false
    ∧ validateToken lib0 0 reqAuth tokNoPH key0 [] = false :=
  ⟨(validateToken_failsClosed lib0 0 reqAuth { macaroon := s2l "garbage", preimage := s2l "ab" } key0 []).1
      (by decide),
   (validateToken_failsClosed lib0 0 reqAuth tok0 [1] []).2.1 m0 sig0 (by decide) (by decide),
   (validateToken_failsClosed lib0 0 reqAuth tokNoPH key0 []).2.2 mNoPH sigNoPH (by decide) (by decide)⟩

/-- C4.  During validation the presented preimage is interpreted by
`preimageBytes` (hex-decoded bytes when it is valid even-length hexadecimal,
UTF-8 text bytes otherwise) and its SHA-256 must equal the hash stored in
the token's payment-hash caveat: whenever that comparison fails the token is
rejected — the payment backend is not even an input of `validateToken`, so
a settlement report for the original hash cannot override the mismatch. -/
theorem validateToken_rejects_preimage_mismatch (lib : ExtLib) (now : Nat) (req : Req)
    (token : L402TokenE) (secretKey : List Nat) (optCaveats : List Caveat)
    (m : Macaroon) (sig : List Nat)
    (hde : lib.deserialize token.macaroon = some (m, sig))
    (hmis : preimageMatchesStoredHash lib m token.preimage = false) :
    validateToken lib now req token secretKey optCaveats = false := by
  unfold validateToken validateTokenCore
  rw [hde]
  by_cases hsig : chainSig lib.hmac (hexEncode secretKey) m = sig
  · cases hf : m.caveats.find? (fun c => containsSub c (s2l "payment_hash")) with
    | none => simp [hsig, hf]
    | some cstr =>
      cases hm : matchPaymentHash cstr with
      | none => simp [hsig, hf, hm]
      | some cap =>
        have hex : extractPaymentHashValue m = some (trimL cap) := by
          unfold extractPaymentHashValue
          rw [hf]
          simp [hm]
        unfold preimageMatchesStoredHash at hmis
        rw [hex] at hmis
        have hne : hexEncode (lib.sha256 (preimageBytes token.preimage))
            ≠ hexEncode (base64Decode (trimL cap)) := by
          simpa using hmis
        simp [hsig, hf, hm, hne]
  · simp [hsig]

/-- C4 witness: the preimage `ff` hashes (under the instantiated digest) to
`ff`, which differs from the stored caveat hash `ab`, and validation
rejects the token. -/
theorem validateToken_rejects_preimage_mismatch_witness :
    validateToken lib0 0 reqAuth tokBad key0 [] = false :=
  validateToken_rejects_preimage_mismatch lib0 0 reqAuth tokBad key0 [] m0 sig0
    (by decide) (by decide)

/-- C10.  `extractTokenFromHeader` splits the credential at the first colon
only: a header `L402 m:p` with `m` colon-free and `m`, `p` non-empty (and
`p` possibly containing further colons) yields macaroon `m` and preimage
`p`; it returns null — never throwing — when the header is absent, does not
start with the literal `L402 `, has no colon after that, or has an empty
macaroon or preimage part. -/
theorem extractTokenFromHeader_spec (req : Req) (m p h : List Char) :
    (req.headers (s2l "Authorization") = some (s2l "L402 " ++ (m ++ colonChar :: p)) →
      m ≠ [] → p ≠ [] → colonChar ∉ m →
      extractTokenFromHeader req = some { macaroon := m, preimage := p })
    ∧ (req.headers (s2l "Authorization") = none → extractTokenFromHeader req = none)
    ∧ (req.headers (s2l "Authorization") = some h → startsWithL h (s2l "L402 ") = false →
        extractTokenFromHeader req = none)
    ∧ (req.headers (s2l "Authorization") = some h → startsWithL h (s2l "L402 ") = true →
        (∀ c ∈ h.drop 5, c ≠ colonChar) → extractTokenFromHeader req = none)
    ∧ (req.headers (s2l "Authorization") = some (s2l "L402 " ++ colonChar :: p) →
        extractTokenFromHeader req = none)
    ∧ (req.headers (s2l "Authorization") = some (s2l "L402 " ++ (m ++ [colonChar])) →
        colonChar ∉ m → extractTokenFromHeader req = none) := by
  refine ⟨?_, ?_, ?_, ?_, ?_, ?_⟩
  · intro hh hm hp hc
    unfold extractTokenFromHeader
    rw [hh]
    have h0 : (s2l "L402 " ++ (m ++ colonChar :: p)).isEmpty = false := rfl
    have hssw : startsWithL (s2l "L402 " ++ (m ++ colonChar :: p)) (s2l "L402 ") = true :=
      startsWithL_append _ _
    have hidx : idxOfColon ((s2l "L402 " ++ (m ++ colonChar :: p)).drop 5) = some m.length := by
      show idxOfColon (m ++ colonChar :: p) = some m.length
      exact idxOfColon_split m p hc
    have htake : (m ++ colonChar :: p).take m.length = m := take_append_self _ _
    have hdrop2 : (m ++ colonChar :: p).drop (m.length + 1) = p := by
      have h2 : m ++ colonChar :: p = (m ++ [colonChar]) ++ p := by simp
      rw [h2, show m.length + 1 = (m ++ [colonChar]).length by simp, drop_append_self]
    have hm' : m.isEmpty = false := by
      cases m with
      | nil => exact absurd rfl hm
      | cons a t => rfl
    have hp' : p.isEmpty = false := by
      cases p with
      | nil => exact absurd rfl hp
      | cons a t => rfl
    have hdrop5 : (s2l "L402 " ++ (m ++ colonChar :: p)).drop 5 = m ++ colonChar :: p := rfl
    have hidx' : idxOfColon (m ++ colonChar :: p) = some m.length := idxOfColon_split m p hc
    simp [h0, hssw, hdrop5, hidx', htake, hdrop2, hm, hp]
  · intro hh
    unfold extractTokenFromHeader
    rw [hh]
  · intro hh hsw
    unfold extractTokenFromHeader
    rw [hh]
    simp [hsw]
  · intro hh hsw hnc
    unfold extractTokenFromHeader
    rw [hh]
    have h0 : h.isEmpty = false := by
      cases h with
      | nil => exact absurd hsw (by decide)
      | cons a t => rfl
    have hidx : idxOfColon (h.drop 5) = none := idxOfColon_of_not_mem _ hnc
    simp [h0, hsw, hidx]
  · intro hh
    unfold extractTokenFromHeader
    rw [hh]
    have hssw : startsWithL (s2l "L402 " ++ colonChar :: p) (s2l "L402 ") = true :=
      startsWithL_append _ _
    have hidx : idxOfColon ((s2l "L402 " ++ colonChar :: p).drop 5) = some 0 := by
      show idxOfColon (colonChar :: p) = some 0
      simp [idxOfColon]
    simp [hssw, hidx]
  · intro hh hc
    unfold extractTokenFromHeader
    rw [hh]
    have hssw : startsWithL (s2l "L402 " ++ (m ++ [colonChar])) (s2l "L402 ") = true :=
      startsWithL_append _ _
    have hidx : idxOfColon (m ++ [colonChar]) = some m.length := idxOfColon_split m [] hc
    have hdrop2 : (m ++ [colonChar]).drop (m.length + 1) = [] := by
      rw [show m.length + 1 = (m ++ [colonChar]).length by simp]
      exact List.drop_length _
    have hdrop5 : (s2l "L402 " ++ (m ++ [colonChar])).drop 5 = m ++ [colonChar] := rfl
    simp [hssw, hidx, hdrop5, hdrop2]

/-- C10 witness: each clause instantiated at a concrete header — a
well-formed credential, a missing header, a `Bearer` scheme, a colon-free
credential, an empty macaroon part and an empty preimage part. -/
theorem extractTokenFromHeader_spec_witness :
    extractTokenFromHeader reqAuth = some { macaroon := s2l "MAC0", preimage := s2l "ab" }
    ∧ extractTokenFromHeader reqNoAuth = none
    ∧ extractTokenFromHeader (mkAuthReq "Bearer t") = none
    ∧ extractTokenFromHeader (mkAuthReq "L402 abc") = none
    ∧ extractTokenFromHeader (mkAuthReq "L402 :pp") = none
    ∧ extractTokenFromHeader (mkAuthReq "L402 mm:") = none :=
  ⟨(extractTokenFromHeader_spec reqAuth (s2l "MAC0") (s2l "ab") []).1
      (by decide) (by decide) (by decide) (by decide),
   (extractTokenFromHeader_spec reqNoAuth [] [] []).2.1 (by decide),
   (extractTokenFromHeader_spec (mkAuthReq "Bearer t") [] [] (s2l "Bearer t")).2.2.1
      (by decide) (by decide),
   (extractTokenFromHeader_spec (mkAuthReq "L402 abc") [] [] (s2l "L402 abc")).2.2.2.1
      (by decide) (by decide) (by decide),
   (extractTokenFromHeader_spec (mkAuthReq "L402 :pp") [] (s2l "pp") []).2.2.2.2.1 (by decide),
   (extractTokenFromHeader_spec (mkAuthReq "L402 mm:") (s2l "mm") [] []).2.2.2.2.2
      (by decide) (by decide)⟩
